import Mathlib

/-!
# Verification of `unflutter_apply.py` (the unflutter Ghidra post-script)

A shallow embedding, in Lean 4, of the annotation-application engine in
`ghidra_scripts/unflutter_apply.py`: name sanitization, class-struct
synthesis (Phase 1c), thread-struct synthesis (Phase 1c2), the function
materializer (Phase 1b), the signature applier (Phase 1d), and the
selective decompiler (Phase 3).  Host (Ghidra) behaviour that the script
observes — whether a function already exists at an address, whether
creation/renaming/labelling succeeds, what the decompiler returns — is
modelled as an explicit oracle value consumed by each embedded phase, so
every control path of the Python code is represented by a value of the
oracle type and the embedded functions are total and executable.

Python-to-Lean conventions used throughout:
* a Python `try: op() ... except: ...` around a host call is modelled by
  an oracle field saying whether `op` raised;
* falsy/truthy tests on strings (`if owner:`) become `≠ ""` tests;
* JSON integers are `Int` (offsets and sizes may be negative in the
  document; the code guards on that explicitly);
* dictionaries built by insertion (`owner_by_addr`) become a left fold
  where a later record overwrites an earlier one.
-/

namespace Unflutter

/-! ## Name sanitization (`sanitize`, unflutter_apply.py lines 426-437)

`ch.isalnum()` in the source is Python's Unicode-aware classification:
it accepts every Unicode letter and digit, not just ASCII — `é` is
alphanumeric to the program.  `pyIsAlnum` embeds that classification
exactly on the code points this development exercises: all of ASCII and
all of the Latin-1 Supplement letters. -/

/-- Python's Unicode-aware `str.isalnum`, embedded on the Basic Latin
and Latin-1 Supplement blocks: on ASCII it is exactly `[0-9A-Za-z]`
(`Char.isAlphanum`), and on `U+0080`-`U+00FF` it accepts exactly the
Unicode letters of that block — `ª` (U+00AA), `µ` (U+00B5),
`º` (U+00BA), `À`-`Ö` (U+00C0-U+00D6), `Ø`-`ö` (U+00D8-U+00F6) and
`ø`-`ÿ` (U+00F8-U+00FF).  Code points above `U+00FF`, and the Latin-1
numeric signs (`²³¹¼½¾`, whose classification differs between Python
runtimes), are conservatively classified non-alphanumeric; no theorem
below depends on them. -/
def pyIsAlnum (c : Char) : Bool :=
  c.isAlphanum || c.toNat = 0xAA || c.toNat = 0xB5 || c.toNat = 0xBA ||
    (0xC0 ≤ c.toNat && c.toNat ≤ 0xD6) || (0xD8 ≤ c.toNat && c.toNat ≤ 0xF6) ||
    (0xF8 ≤ c.toNat && c.toNat ≤ 0xFF)

/-- One character of `sanitize`: keep alphanumerics (in Python's
Unicode sense) and `_`, `-`, `.`; replace everything else with `_`. -/
def sanitizeChar (c : Char) : Char :=
  if pyIsAlnum c || c = '_' || c = '-' || c = '.' then c else '_'

/-- `sanitize(name)`: map `sanitizeChar` over the characters, then
truncate to 120 characters (`if len(s) > 120: s = s[:120]`). -/
def sanitize (name : String) : String :=
  let s := name.data.map sanitizeChar
  String.mk (if s.length > 120 then s.take 120 else s)

/-- The character class `[A-Za-z0-9_.-]` that sanitized output must lie in. -/
def allowedChar (c : Char) : Bool :=
  ('A' ≤ c && c ≤ 'Z') || ('a' ≤ c && c ≤ 'z') || ('0' ≤ c && c ≤ '9') ||
    c = '_' || c = '-' || c = '.'

/-! ## Metadata records (§3 of the design; JSON fields read by `main`) -/

/-- One entry of `meta["functions"]`. -/
structure FunctionRecord where
  addr : String
  name : String
  owner : String
  param_count : Nat
  deriving Repr, DecidableEq

/-- One entry of `cls["fields"]`. -/
structure FieldRecord where
  name : String
  byte_offset : Int
  deriving Repr, DecidableEq

/-- One entry of `meta["classes"]`. -/
structure ClassRecord where
  class_name : String
  instance_size : Int
  fields : List FieldRecord
  deriving Repr, DecidableEq

/-- One entry of `meta["thr_fields"]`. -/
structure ThreadFieldRecord where
  name : String
  offset : Int
  deriving Repr, DecidableEq

/-! ## Type synthesis (Phase 1c, lines 176-198, and Phase 1c2, lines 206-225)

`StructureDataType(cat, sname, size)` allocates an opaque fixed-size
layout; each `replaceAtOffset(offset, ty, width, name, "")` that the
script performs is recorded as a `PlacedField`. -/

/-- One `replaceAtOffset` call performed on a synthesized struct. -/
structure PlacedField where
  offset : Int
  width : Int
  name : String
  deriving Repr, DecidableEq

/-- A synthesized composite layout: the struct's registered name, its
fixed byte size, and the fields actually placed into it. -/
structure SynthesizedStruct where
  name : String
  size : Int
  placed : List PlacedField
  deriving Repr, DecidableEq

/-- Phase 1c body for one `ClassRecord` (lines 177-193): skip the class
when `instance_size <= 0`; otherwise allocate a struct of that size named
`"Dart_" + sanitize(class_name)` and place a `pointer_size`-wide field at
each field's `byte_offset` exactly when
`offset >= 0 and offset + pointer_size <= size`. -/
def synthClass (pointer_size : Int) (c : ClassRecord) : Option SynthesizedStruct :=
  if c.instance_size ≤ 0 then
    none
  else
    some
      { name := "Dart_" ++ sanitize c.class_name
        size := c.instance_size
        placed :=
          c.fields.filterMap fun f =>
            if 0 ≤ f.byte_offset ∧ f.byte_offset + pointer_size ≤ c.instance_size then
              some { offset := f.byte_offset, width := pointer_size, name := f.name }
            else
              none }

/-- The largest `offset` among thread-field records, starting the scan
from `a` (the Python `max(f["offset"] for f in thr_fields)` generator). -/
def maxOffsetFrom (a : Int) (l : List ThreadFieldRecord) : Int :=
  l.foldl (fun m f => max m f.offset) a

/-- Phase 1c2 (lines 210-222): when `thr_fields` is non-empty, build the
single `DartThread` struct of size `max offset + 8` and place an 8-byte
(`ptr_type`) field at each offset with `off >= 0 and off + 8 <= thr_size`.
The document's `pointer_size` is not consulted anywhere in this phase. -/
def synthThread (thr_fields : List ThreadFieldRecord) : Option SynthesizedStruct :=
  match thr_fields with
  | [] => none
  | t :: ts =>
    let thr_size := maxOffsetFrom t.offset ts + 8
    some
      { name := "DartThread"
        size := thr_size
        placed :=
          (t :: ts).filterMap fun f =>
            if 0 ≤ f.offset ∧ f.offset + 8 ≤ thr_size then
              some { offset := f.offset, width := 8, name := f.name }
            else
              none }

/-! ## Function materializer (Phase 1b, lines 114-152)

Per record the script performs host calls whose success or failure the
script cannot control; `MatHost` packages the host's answers for the
calls this record's control flow can make:
* `existingFn` — `fm.getFunctionAt(addr) is not None`;
* `renameOk` — `fn.setName(...)` did not raise;
* `createRes1` — first `createFunction(addr, name)`:
  `some true` returned a function, `some false` returned `None`,
  `none` raised;
* `disasmThrows` — the fallback `disassemble(addr)` raised;
* `createRes2` — the retried `createFunction(addr, name)`, same coding;
* `labelOk` — `symtab.createLabel(...)` did not raise. -/

/-- Host answers for one record of Phase 1b. -/
structure MatHost where
  existingFn : Bool
  renameOk : Bool
  createRes1 : Option Bool
  disasmThrows : Bool
  createRes2 : Option Bool
  labelOk : Bool
  deriving Repr, DecidableEq, Fintype

/-- A host call the materializer can make, in program order. -/
inductive HostOp where
  | getFunctionAt
  | setName
  | createFunction
  | clearListing
  | disassemble
  | createLabel
  deriving Repr, DecidableEq

/-- What processing one record did: the host calls it made, in order,
and the increment each of the four RunStats counters received. -/
structure MatResult where
  ops : List HostOp
  dRenamed : Nat
  dCreated : Nat
  dLabels : Nat
  dFailed : Nat
  deriving Repr, DecidableEq

/-- Lines 147-152: try to create a label; `labels` is bumped when
`createLabel` does not raise, `create_failed` when it does. -/
def labelStep (h : MatHost) (pre : List HostOp) : MatResult :=
  if h.labelOk then
    ⟨pre ++ [HostOp.createLabel], 0, 0, 1, 0⟩
  else
    ⟨pre ++ [HostOp.createLabel], 0, 0, 0, 1⟩

/-- The Phase 1b loop body (lines 114-152) for one record, transcribed
branch for branch:
1. a function already at the address is renamed (`renamed += 1`; a
   raising `setName` is swallowed by `except: pass` and the loop
   `continue`s with no counter touched);
2. else `createFunction` (`created += 1` when it returns a function;
   a raise or a `None` return falls through);
3. else `disassemble(addr)` then `createFunction` again (a raising
   `disassemble` skips the retry);
4. else `createLabel` (`labels += 1` on success, `create_failed += 1`
   when it raises). -/
def materializeRecord (h : MatHost) : MatResult :=
  if h.existingFn then
    if h.renameOk then
      ⟨[HostOp.getFunctionAt, HostOp.setName], 1, 0, 0, 0⟩
    else
      ⟨[HostOp.getFunctionAt, HostOp.setName], 0, 0, 0, 0⟩
  else
    match h.createRes1 with
    | some true => ⟨[HostOp.getFunctionAt, HostOp.createFunction], 0, 1, 0, 0⟩
    | _ =>
      if h.disasmThrows then
        labelStep h [HostOp.getFunctionAt, HostOp.createFunction, HostOp.disassemble]
      else
        match h.createRes2 with
        | some true =>
          ⟨[HostOp.getFunctionAt, HostOp.createFunction, HostOp.disassemble,
            HostOp.createFunction], 0, 1, 0, 0⟩
        | _ =>
          labelStep h [HostOp.getFunctionAt, HostOp.createFunction, HostOp.disassemble,
            HostOp.createFunction]

/-- Total increment this record gave to the four materializer counters. -/
def MatResult.total (r : MatResult) : Nat :=
  r.dRenamed + r.dCreated + r.dLabels + r.dFailed

/-! ## Signature applier (Phase 1d, lines 240-282)

`ptr_type` in the script is `Pointer64DataType.dataType`, a full
pointer-width pointer with no pointee type; `PointerDataType(struct)`
is a pointer to a synthesized owner struct. -/

/-- The data type given to a return value or parameter. -/
inductive PType where
  /-- `ptr_type = Pointer64DataType.dataType`: a generic full-width pointer. -/
  | pointer64
  /-- `PointerDataType(struct_by_owner[owner])`: pointer to the owner's struct. -/
  | pointerTo (owner : String)
  deriving Repr, DecidableEq

/-- One `ParameterImpl(name, type, currentProgram)`. -/
structure Param where
  name : String
  type : PType
  deriving Repr, DecidableEq

/-- The class names present in `struct_by_owner` after Phase 1c: exactly
the classes for which `synthClass` produced a struct (lines 192-193 store
the resolved type under `cls["class_name"]`). -/
def structOwners (pointer_size : Int) (classes : List ClassRecord) : List String :=
  classes.filterMap fun c => (synthClass pointer_size c).map fun _ => c.class_name

/-- Lines 261-267: the implicit `this` parameter for a method of class
`owner` — typed to the owner's struct when Phase 1c registered one
(`owner in struct_by_owner`), else the generic `ptr_type`. -/
def thisParam (owners : List String) (owner : String) : Param :=
  { name := "this"
    type := if owner ∈ owners then PType.pointerTo owner else PType.pointer64 }

/-- Lines 257-271: the parameter list built for one record — a typed
`this` first when `owner` is non-empty, then `param_count` generic
pointers named `p0`, `p1`, …. -/
def sigParams (owners : List String) (owner : String) (pc : Nat) : List Param :=
  (if owner ≠ "" then [thisParam owners owner] else []) ++
    (List.range pc).map fun i => { name := "p" ++ toString i, type := PType.pointer64 }

/-- What Phase 1d does to one function that exists at its record's
address: the return type handed to `setReturnType` (line 251), and the
list handed to `replaceParameters` — `none` when `if not params:
continue` (line 273) skipped the call. -/
structure SigAction where
  returnType : PType
  applied : Option (List Param)
  deriving Repr, DecidableEq

/-- Phase 1d body for one record whose address holds a function:
`setReturnType(ptr_type, ...)` unconditionally, then `replaceParameters`
with `sigParams` unless that list is empty. -/
def applySignature (owners : List String) (owner : String) (pc : Nat) : SigAction :=
  let params := sigParams owners owner pc
  { returnType := PType.pointer64
    applied := if params.isEmpty then none else some params }

/-! ## Selective decompiler (Phase 3, lines 304-397) -/

/-- A resolved Ghidra function: its entry-point address rendered the way
the metadata renders addresses, and its current name (`fn.getName()`). -/
structure FnInfo where
  entryAddr : String
  name : String
  deriving Repr, DecidableEq

/-- What `ifc.decompileFunction(fn, 60, monitor)` did:
* `thrown msg` — the call raised (caught at line 347);
* `null` — it returned `None` (so `if result and ...` is false);
* `res completed decomp errMsg` — it returned a result with
  `decompileCompleted()` = `completed`, `getDecompiledFunction()`
  either `None` (`decomp = none`) or carrying C text `getC()`
  (`decomp = some text`), and `getErrorMessage()` = `errMsg`
  (`""` for no message). -/
inductive DecResult where
  | thrown (msg : String)
  | null
  | res (completed : Bool) (decomp : Option String) (errMsg : String)
  deriving Repr, DecidableEq

/-- One entry appended to `index` in Phase 3. `file` is `None` on
failure; `reason` is absent (`none`) on success. `ok` is the JSON field
named `decompile_ok`. -/
structure IndexEntry where
  addr : String
  name : String
  file : Option String
  ok : Bool
  reason : Option String
  deriving Repr, DecidableEq

/-- Everything one focus address contributed in Phase 3: its index
entry, the output-directory-relative path written (if any), whether the
decompilation service was invoked, and the increments to the
`decompiled` / `decompile_failed` counters. -/
structure FocusOutcome where
  entry : IndexEntry
  wrote : Option String
  invoked : Bool
  dDecompiled : Nat
  dFailed : Nat
  deriving Repr, DecidableEq

/-- Lines 304-308: `owner_by_addr` maps a record's `addr` string to its
non-empty `owner`; a later record with the same `addr` overwrites an
earlier one; absent keys read as `""` (`dict.get(addr_str, "")`). -/
def ownerByAddr (fns : List FunctionRecord) (a : String) : String :=
  fns.foldl (fun acc e => if e.owner ≠ "" ∧ e.addr = a then e.owner else acc) ""

/-- Line 362's `addr_str.replace("0x", "")`: delete every
non-overlapping occurrence of `0x`, scanning left to right (the
semantics of Python `str.replace` with an empty replacement). -/
def strip0x : List Char → List Char
  | '0' :: 'x' :: rest => strip0x rest
  | c :: rest => c :: strip0x rest
  | [] => []

/-- Line 362: `safe_name = addr_str.replace("0x", "") + "_" + sanitize(fn_name)`. -/
def safeName (addrStr fnName : String) : String :=
  String.mk (strip0x addrStr.data) ++ "_" ++ sanitize fnName

/-- Phase 3 loop body (lines 321-397) for one focus address, transcribed
branch for branch.  `fnAt` is `fm.getFunctionAt(addr)`, `fnCont` is
`fm.getFunctionContaining(addr)` (consulted only when the exact match
fails), `dec` is the decompilation service's behaviour at this address
(consulted only when a function resolved). -/
def processFocus (fns : List FunctionRecord) (addrStr : String)
    (fnAt fnCont : Option FnInfo) (dec : DecResult) : FocusOutcome :=
  let resolved := match fnAt with
    | some fn => some fn
    | none => fnCont
  match resolved with
  | none =>
    { entry := { addr := addrStr, name := "unknown", file := none,
                 ok := false, reason := some "no_function" }
      wrote := none, invoked := false, dDecompiled := 0, dFailed := 1 }
  | some fn =>
    match dec with
    | DecResult.thrown msg =>
      { entry := { addr := addrStr, name := fn.name, file := none,
                   ok := false, reason := some (msg.take 100) }
        wrote := none, invoked := true, dDecompiled := 0, dFailed := 1 }
    | DecResult.null =>
      { entry := { addr := addrStr, name := fn.name, file := none,
                   ok := false, reason := some "decompile_incomplete" }
        wrote := none, invoked := true, dDecompiled := 0, dFailed := 1 }
    | DecResult.res completed decomp errMsg =>
      match completed, decomp with
      | true, some _ =>
        let safe_name := safeName addrStr fn.name
        let owner := ownerByAddr fns addrStr
        let out_file :=
          if owner ≠ "" then sanitize owner ++ "/" ++ safe_name ++ ".c"
          else safe_name ++ ".c"
        { entry := { addr := addrStr, name := fn.name, file := some out_file,
                     ok := true, reason := none }
          wrote := some out_file, invoked := true, dDecompiled := 1, dFailed := 0 }
      | _, _ =>
        let reason := if errMsg ≠ "" then errMsg.take 100 else "decompile_incomplete"
        { entry := { addr := addrStr, name := fn.name, file := none,
                     ok := false, reason := some reason }
          wrote := none, invoked := true, dDecompiled := 0, dFailed := 1 }

/-- The per-address host behaviour Phase 3 can observe. -/
structure DecOracle where
  fnAt : Option FnInfo
  fnCont : Option FnInfo
  dec : DecResult

/-- The whole Phase 3 loop: one `FocusOutcome` per focus address, in
order. -/
def runFocusList (fns : List FunctionRecord) (oracle : String → DecOracle)
    (focus : List String) : List FocusOutcome :=
  focus.map fun a => processFocus fns a (oracle a).fnAt (oracle a).fnCont (oracle a).dec

/-! ## The whole run (`main`, lines 40-423)

Enough of `main` to state the missing-argument guard: the run is the
list of mutations it performs on the host database and the filesystem,
assembled from the per-phase functions above.  `main` returns at line 44
before opening the document when no script argument was given. -/

/-- One entry of `meta["comments"]`. -/
structure CommentRecord where
  addr : String
  text : String
  deriving Repr, DecidableEq

/-- The loaded metadata document (§3 / §6 of the design). -/
structure MetaDoc where
  pointer_size : Int
  functions : List FunctionRecord
  classes : List ClassRecord
  thr_fields : List ThreadFieldRecord
  comments : List CommentRecord
  focus_functions : List String

/-- Host behaviour for a whole run, one answer per address the script
can touch. -/
structure HostOracle where
  /-- Phase 1a: `listing.getInstructionAt(addr) is not None`. -/
  hasInstr : String → Bool
  /-- Phase 1b answers, per record address. -/
  mat : String → MatHost
  /-- Phase 1d / Phase 3: `fm.getFunctionAt(addr)` after materialization. -/
  fnAt : String → Option FnInfo
  /-- Phase 3: `fm.getFunctionContaining(addr)`. -/
  fnCont : String → Option FnInfo
  /-- Phase 3: what the decompilation service did at this address. -/
  dec : String → DecResult
  /-- Phase 2: `setEOLComment` did not raise. -/
  commentOk : String → Bool

/-- A mutation of the host analysis database or of the filesystem. -/
inductive Effect where
  /-- A Phase 1a/1b host call at a record address. -/
  | hostOp (addr : String) (op : HostOp)
  /-- `dtm.addDataType` of a synthesized struct. -/
  | addType (name : String)
  /-- `fn.setReturnType` at a record address. -/
  | setReturn (addr : String)
  /-- `fn.replaceParameters` with `n` parameters at a record address. -/
  | setParams (addr : String) (n : Nat)
  /-- `setEOLComment` at an address. -/
  | setComment (addr : String) (text : String)
  /-- A file written under the output directory. -/
  | fileWrite (path : String)

/-- Phase 1a (lines 95-109): at every record address lacking an
instruction, `clearListing` then `disassemble`. -/
def phase1aEffects (host : HostOracle) (fns : List FunctionRecord) : List Effect :=
  fns.flatMap fun e =>
    if host.hasInstr e.addr then []
    else [Effect.hostOp e.addr HostOp.clearListing, Effect.hostOp e.addr HostOp.disassemble]

/-- Phase 1b: the host calls `materializeRecord` makes, per record. -/
def phase1bEffects (host : HostOracle) (fns : List FunctionRecord) : List Effect :=
  fns.flatMap fun e => (materializeRecord (host.mat e.addr)).ops.map (Effect.hostOp e.addr)

/-- Phases 1c and 1c2: the struct types registered with `addDataType`. -/
def typeEffects (doc : MetaDoc) : List Effect :=
  (doc.classes.filterMap fun c => (synthClass doc.pointer_size c).map fun s => Effect.addType s.name)
    ++ ((synthThread doc.thr_fields).map fun s => [Effect.addType s.name]).getD []

/-- Phase 1d: for each record whose address now holds a function, set
the return type, then replace the parameters unless the list is empty. -/
def phase1dEffects (host : HostOracle) (doc : MetaDoc) : List Effect :=
  doc.functions.flatMap fun e =>
    match host.fnAt e.addr with
    | none => []
    | some _ =>
      let act := applySignature (structOwners doc.pointer_size doc.classes) e.owner e.param_count
      Effect.setReturn e.addr ::
        (match act.applied with
         | none => []
         | some ps => [Effect.setParams e.addr ps.length])

/-- Phase 2 (lines 290-298): one `setEOLComment` per comment record that
does not raise. -/
def phase2Effects (host : HostOracle) (doc : MetaDoc) : List Effect :=
  doc.comments.filterMap fun e =>
    if host.commentOk e.addr then some (Effect.setComment e.addr e.text) else none

/-- Phase 3: runs only when an output directory was given and the focus
list is non-empty; writes one file per successful decompilation and
`index.json` at the end. -/
def phase3Effects (host : HostOracle) (doc : MetaDoc) (out_dir : Option String) : List Effect :=
  match out_dir with
  | none => []
  | some _ =>
    if doc.focus_functions.isEmpty then []
    else
      (runFocusList doc.functions
          (fun a => { fnAt := host.fnAt a, fnCont := host.fnCont a, dec := host.dec a })
          doc.focus_functions).filterMap (fun o => o.wrote.map Effect.fileWrite)
        ++ [Effect.fileWrite "index.json"]

/-- `main` (lines 40-423) as the list of mutations it performs: with no
script argument it prints an error and returns at line 44, before
loading the document and before any phase runs; otherwise `args[0]` is
the document path, `args[1]` (when present) the output directory, and
the phases run in order. -/
def mainRun (args : List String) (doc : MetaDoc) (host : HostOracle) : List Effect :=
  match args with
  | [] => []
  | _ :: rest =>
    phase1aEffects host doc.functions
      ++ phase1bEffects host doc.functions
      ++ typeEffects doc
      ++ phase1dEffects host doc
      ++ phase2Effects host doc
      ++ phase3Effects host doc rest.head?

/-! ## Theorems -/

/-- C1 counterexample. The claim asserts that exactly one of
{renamed, created, label-only, failed} holds with a counter increment of
one for every record, "including when an existing callable unit is found
but renaming it fails" — but on that very path (lines 120-126:
`fn.setName` raises, `except: pass`, `continue`) the script increments
no counter at all: with a function already at the address and a failing
rename, all four increments are 0 and their total is 0, not 1. -/
theorem materialize_renameFail_no_counter :
    (materializeRecord
        { existingFn := true, renameOk := false, createRes1 := some true,
          disasmThrows := false, createRes2 := some true, labelOk := true }).total = 0 ∧
      ¬ (materializeRecord
          { existingFn := true, renameOk := false, createRes1 := some true,
            disasmThrows := false, createRes2 := some true, labelOk := true }).total = 1 := by
  decide

set_option maxRecDepth 8192 in
/-- C1 amended. For every host behaviour, each materializer counter
increments by at most one, and the total increment is exactly one —
except on the rename-failure path (an existing function whose `setName`
raises), where no counter increments; the `renamed` counter increments
exactly when an existing function was successfully renamed. -/
theorem materialize_counter_spec (h : MatHost) :
    (materializeRecord h).dRenamed ≤ 1 ∧ (materializeRecord h).dCreated ≤ 1 ∧
    (materializeRecord h).dLabels ≤ 1 ∧ (materializeRecord h).dFailed ≤ 1 ∧
    (materializeRecord h).total = (if h.existingFn ∧ ¬ h.renameOk then 0 else 1) ∧
    ((materializeRecord h).dRenamed = 1 ↔ h.existingFn ∧ h.renameOk) := by
  revert h
  decide

/-- C1 witness: instantiating `materialize_counter_spec` at the
all-succeeding host gives a renamed record with total increment one. -/
theorem materialize_counter_spec_witness :
    (materializeRecord
        { existingFn := true, renameOk := true, createRes1 := some true,
          disasmThrows := false, createRes2 := some true, labelOk := true }).total = 1 := by
  have h := materialize_counter_spec
    { existingFn := true, renameOk := true, createRes1 := some true,
      disasmThrows := false, createRes2 := some true, labelOk := true }
  simpa using h.2.2.2.2.1

/-- C4 counterexample. The claim's step (3) says the per-record fallback
forces instruction decoding "clearing conflicting prior analysis" before
retrying creation; but the per-record fallback (lines 137-145) calls
only `disassemble`, never `clearListing`: a record that reaches step 3
has `disassemble` in its host-call trace and no `clearListing`
anywhere. (`clearListing` occurs only in the Phase-1a bulk sweep,
lines 101-103.) -/
theorem materialize_step3_no_clear :
    HostOp.disassemble ∈
        (materializeRecord
          { existingFn := false, renameOk := true, createRes1 := some false,
            disasmThrows := false, createRes2 := some true, labelOk := true }).ops ∧
      HostOp.clearListing ∉
        (materializeRecord
          { existingFn := false, renameOk := true, createRes1 := some false,
            disasmThrows := false, createRes2 := some true, labelOk := true }).ops := by
  decide

set_option maxRecDepth 8192 in
/-- C4 amended. Per record the materializer follows the strict priority
order (1) rename an existing function, (2) direct creation, (3) force
instruction decoding — WITHOUT clearing prior analysis, which happens
only in the bulk pre-sweep — then retry creation, (4) plain label,
(5) failed; no record is retried once terminal: an existing function
stops processing after the rename attempt, a successful direct creation
stops before any decode, `created` holds exactly when one of the two
creation tiers succeeded, `labels`/`create_failed` exactly when both
creation tiers failed and the label attempt succeeded/raised, and no
host call is repeated beyond the two creation attempts. -/
theorem materialize_priority_spec (h : MatHost) :
    HostOp.clearListing ∉ (materializeRecord h).ops ∧
    (h.existingFn →
      (materializeRecord h).ops = [HostOp.getFunctionAt, HostOp.setName]) ∧
    (¬ h.existingFn → h.createRes1 = some true →
      (materializeRecord h).ops = [HostOp.getFunctionAt, HostOp.createFunction]) ∧
    ((materializeRecord h).dCreated = 1 ↔
      ¬ h.existingFn ∧ (h.createRes1 = some true ∨
        (h.createRes1 ≠ some true ∧ ¬ h.disasmThrows ∧ h.createRes2 = some true))) ∧
    ((materializeRecord h).dLabels = 1 ↔
      ¬ h.existingFn ∧ h.createRes1 ≠ some true ∧
        (h.disasmThrows ∨ h.createRes2 ≠ some true) ∧ h.labelOk) ∧
    ((materializeRecord h).dFailed = 1 ↔
      ¬ h.existingFn ∧ h.createRes1 ≠ some true ∧
        (h.disasmThrows ∨ h.createRes2 ≠ some true) ∧ ¬ h.labelOk) ∧
    (materializeRecord h).ops.count HostOp.createFunction ≤ 2 ∧
    (materializeRecord h).ops.count HostOp.getFunctionAt ≤ 1 ∧
    (materializeRecord h).ops.count HostOp.setName ≤ 1 ∧
    (materializeRecord h).ops.count HostOp.disassemble ≤ 1 ∧
    (materializeRecord h).ops.count HostOp.createLabel ≤ 1 := by
  revert h
  decide

/-- C4 witness: instantiating `materialize_priority_spec` where direct
creation returns `None` and the decode-then-retry tier succeeds: the
`created` counter reads 1. -/
theorem materialize_priority_spec_witness :
    (materializeRecord
        { existingFn := false, renameOk := true, createRes1 := some false,
          disasmThrows := false, createRes2 := some true, labelOk := true }).dCreated = 1 := by
  have h := materialize_priority_spec
    { existingFn := false, renameOk := true, createRes1 := some false,
      disasmThrows := false, createRes2 := some true, labelOk := true }
  exact h.2.2.2.1.mpr (by decide)

/-- C2. A struct is synthesized for a class exactly when
`instance_size > 0`; inside a synthesized struct a field is placed
exactly when `0 ≤ byte_offset` and `byte_offset + pointer_size ≤
instance_size`; every placed field keeps the full `pointer_size` width
(never truncated) and lies entirely inside the struct's bounds. -/
theorem synthClass_spec (ps : Int) (c : ClassRecord) :
    ((synthClass ps c).isSome ↔ 0 < c.instance_size) ∧
    ∀ s, synthClass ps c = some s →
      s.size = c.instance_size ∧
      (∀ f ∈ c.fields,
        ((∃ p ∈ s.placed, p.offset = f.byte_offset ∧ p.name = f.name) ↔
          0 ≤ f.byte_offset ∧ f.byte_offset + ps ≤ c.instance_size)) ∧
      (∀ p ∈ s.placed, p.width = ps ∧ 0 ≤ p.offset ∧ p.offset + p.width ≤ s.size) := by
  unfold synthClass
  by_cases hsz : c.instance_size ≤ 0
  · simp only [hsz, if_pos]
    refine ⟨by simpa using by omega, ?_⟩
    intro s hs
    exact absurd hs (by simp)
  · simp only [hsz, if_neg, not_false_iff]
    constructor
    · simpa using by omega
    · intro s hs
      injection hs with hs
      subst hs
      refine ⟨rfl, ?_, ?_⟩
      · intro f hf
        constructor
        · rintro ⟨p, hp, hoff, _⟩
          rw [List.mem_filterMap] at hp
          obtain ⟨g, _, hg⟩ := hp
          by_cases hcond : 0 ≤ g.byte_offset ∧ g.byte_offset + ps ≤ c.instance_size
          · rw [if_pos hcond] at hg
            injection hg with hg
            subst hg
            simp only at hoff
            omega
          · rw [if_neg hcond] at hg
            exact absurd hg (by simp)
        · intro hcond
          refine ⟨{ offset := f.byte_offset, width := ps, name := f.name }, ?_, rfl, rfl⟩
          rw [List.mem_filterMap]
          exact ⟨f, hf, if_pos hcond⟩
      · intro p hp
        rw [List.mem_filterMap] at hp
        obtain ⟨g, _, hg⟩ := hp
        by_cases hcond : 0 ≤ g.byte_offset ∧ g.byte_offset + ps ≤ c.instance_size
        · rw [if_pos hcond] at hg
          injection hg with hg
          subst hg
          exact ⟨rfl, hcond.1, hcond.2⟩
        · rw [if_neg hcond] at hg
          exact absurd hg (by simp)

/-- The §8 scenario class of the design: `Obj`, instance size 16, one
field at offset 0 and one at offset 14. -/
def objScenario : ClassRecord :=
  { class_name := "Obj"
    instance_size := 16
    fields := [{ name := "f0", byte_offset := 0 }, { name := "f1", byte_offset := 14 }] }

/-- C2 witness: `synthClass_spec` instantiated at the design's own
scenario — class `Obj` of size 16 with fields at offsets 0 and 14 under
pointer size 4: `f0` is placed (0 + 4 ≤ 16), `f1` is dropped
(14 + 4 = 18 > 16). -/
theorem synthClass_spec_witness :
    ∃ s, synthClass 4 objScenario = some s ∧
      (∃ p ∈ s.placed, p.offset = 0 ∧ p.name = "f0") ∧
      ¬ (∃ p ∈ s.placed, p.offset = 14 ∧ p.name = "f1") := by
  have h := synthClass_spec 4 objScenario
  refine ⟨{ name := "Dart_Obj", size := 16,
            placed := [{ offset := 0, width := 4, name := "f0" }] }, by decide, ?_, ?_⟩
  · exact ((h.2 _ (by decide)).2.1 { name := "f0", byte_offset := 0 }
      (by simp [objScenario])).mpr (by decide)
  · intro hex
    exact absurd (((h.2 _ (by decide)).2.1 { name := "f1", byte_offset := 14 }
      (by simp [objScenario])).mp hex) (by decide)

/-- C3. For a record whose address holds a function: the return type is
always the full-width pointer, independent of owner and parameter
count; the parameter list is skipped exactly when the record has no
owner and `param_count = 0`; an applied list has length
`param_count + (1 if owner else 0)`, starts with `this` (typed to the
owner's struct when one was synthesized, else the untyped full-width
pointer) when an owner exists, and ends with `param_count` generic
pointers named `p0`, `p1`, …. -/
theorem applySignature_spec (owners : List String) (owner : String) (pc : Nat) :
    (applySignature owners owner pc).returnType = PType.pointer64 ∧
    ((applySignature owners owner pc).applied = none ↔ owner = "" ∧ pc = 0) ∧
    ∀ l, (applySignature owners owner pc).applied = some l →
      l.length = pc + (if owner = "" then 0 else 1) ∧
      (owner ≠ "" → l.head? = some (thisParam owners owner)) ∧
      l.drop (if owner = "" then 0 else 1) =
        (List.range pc).map fun i => { name := "p" ++ toString i, type := PType.pointer64 } := by
  by_cases howner : owner = ""
  · refine ⟨rfl, ?_, ?_⟩
    · simp [applySignature, sigParams, howner, List.isEmpty_iff, List.range_eq_nil]
    · intro l hl
      simp only [applySignature, sigParams, howner, ne_eq, not_true_eq_false, if_neg,
        ite_false, List.nil_append] at hl
      by_cases hpc : pc = 0
      · subst hpc
        simp at hl
      · rw [if_neg (by simpa [List.isEmpty_iff, List.range_eq_nil] using hpc)] at hl
        injection hl with hl
        subst hl
        simp [howner]
  · refine ⟨rfl, ?_, ?_⟩
    · simp [applySignature, sigParams, howner]
    · intro l hl
      simp only [applySignature, sigParams, howner, ne_eq, not_false_iff, if_pos,
        ite_true, List.singleton_append] at hl
      rw [if_neg (by simp)] at hl
      injection hl with hl
      subst hl
      refine ⟨by simp [howner], ?_, ?_⟩
      · intro _
        simp
      · simp [howner]

/-- C3 witness: `applySignature_spec` at a record with owner `A` (whose
struct was synthesized) and `param_count = 2`: three parameters are
applied. -/
theorem applySignature_spec_witness :
    ∃ l, (applySignature ["A"] "A" 2).applied = some l ∧ l.length = 3 := by
  have h := applySignature_spec ["A"] "A" 2
  have h3 := h.2.2 [thisParam ["A"] "A", { name := "p0", type := PType.pointer64 },
      { name := "p1", type := PType.pointer64 }] (by decide)
  refine ⟨[thisParam ["A"] "A", { name := "p0", type := PType.pointer64 },
      { name := "p1", type := PType.pointer64 }], by decide, ?_⟩
  rw [h3.1]
  decide

/-- The start value of the Python `max` generator bounds the result. -/
lemma le_maxOffsetFrom (a : Int) (l : List ThreadFieldRecord) : a ≤ maxOffsetFrom a l := by
  induction l generalizing a with
  | nil => simp [maxOffsetFrom]
  | cons t ts ih =>
    calc a ≤ max a t.offset := le_max_left _ _
    _ ≤ maxOffsetFrom (max a t.offset) ts := ih _
    _ = maxOffsetFrom a (t :: ts) := rfl

/-- Every scanned record's offset bounds the Python `max` result. -/
lemma offset_le_maxOffsetFrom (a : Int) {f : ThreadFieldRecord} {l : List ThreadFieldRecord}
    (hf : f ∈ l) : f.offset ≤ maxOffsetFrom a l := by
  induction l generalizing a with
  | nil => cases hf
  | cons t ts ih =>
    rcases List.mem_cons.mp hf with rfl | hmem
    · calc f.offset ≤ max a f.offset := le_max_right _ _
      _ ≤ maxOffsetFrom (max a f.offset) ts := le_maxOffsetFrom _ _
      _ = maxOffsetFrom a (f :: ts) := rfl
    · exact ih _ hmem

/-- C5. When at least one thread-field record exists, exactly one
`DartThread` layout is synthesized, sized largest offset plus 8 (one
native pointer width); every placed field is 8 bytes wide — the
document's `pointer_size` plays no part — and every record with a
non-negative offset passes the bounds check and is placed; placed
fields stay inside the struct. -/
theorem synthThread_spec (tfs : List ThreadFieldRecord) (hne : tfs ≠ []) :
    ∃ s, synthThread tfs = some s ∧
      s.name = "DartThread" ∧
      (∀ t ts, tfs = t :: ts → s.size = maxOffsetFrom t.offset ts + 8) ∧
      (∀ p ∈ s.placed, p.width = 8) ∧
      (∀ tf ∈ tfs, 0 ≤ tf.offset →
        ({ offset := tf.offset, width := 8, name := tf.name } : PlacedField) ∈ s.placed) ∧
      (∀ p ∈ s.placed, 0 ≤ p.offset ∧ p.offset + p.width ≤ s.size) := by
  obtain ⟨t, ts, rfl⟩ := List.exists_cons_of_ne_nil hne
  refine ⟨_, rfl, rfl, ?_, ?_, ?_, ?_⟩
  · intro t' ts' heq
    injection heq with h1 h2
    subst h1; subst h2
    rfl
  · intro p hp
    rw [List.mem_filterMap] at hp
    obtain ⟨g, _, hg⟩ := hp
    by_cases hcond : 0 ≤ g.offset ∧ g.offset + 8 ≤ maxOffsetFrom t.offset ts + 8
    · rw [if_pos hcond] at hg
      injection hg with hg
      subst hg
      rfl
    · rw [if_neg hcond] at hg
      exact absurd hg (by simp)
  · intro tf htf h0
    rw [List.mem_filterMap]
    refine ⟨tf, htf, if_pos ⟨h0, ?_⟩⟩
    have hle : tf.offset ≤ maxOffsetFrom t.offset ts := by
      rcases List.mem_cons.mp htf with rfl | hmem
      · exact le_maxOffsetFrom _ _
      · exact offset_le_maxOffsetFrom _ hmem
    omega
  · intro p hp
    rw [List.mem_filterMap] at hp
    obtain ⟨g, _, hg⟩ := hp
    by_cases hcond : 0 ≤ g.offset ∧ g.offset + 8 ≤ maxOffsetFrom t.offset ts + 8
    · rw [if_pos hcond] at hg
      injection hg with hg
      subst hg
      exact ⟨hcond.1, hcond.2⟩
    · rw [if_neg hcond] at hg
      exact absurd hg (by simp)

/-- C5 witness: `synthThread_spec` at the one-record list with field
`x` at offset 16: the struct has size 24 and `x` is placed 8 bytes wide. -/
theorem synthThread_spec_witness :
    ∃ s, synthThread [{ name := "x", offset := 16 }] = some s ∧ s.size = 24 ∧
      ({ offset := 16, width := 8, name := "x" } : PlacedField) ∈ s.placed := by
  obtain ⟨s, hs, _, hsize, _, hplace, _⟩ :=
    synthThread_spec [{ name := "x", offset := 16 }] (by decide)
  refine ⟨s, hs, ?_, ?_⟩
  · rw [hsize { name := "x", offset := 16 } [] rfl]
    decide
  · exact hplace { name := "x", offset := 16 } (by decide) (by decide)

/-- ASCII alphanumerics lie in the ranges `A-Z`, `a-z`, `0-9`. -/
lemma isAlphanum_ranges {c : Char} (h : c.isAlphanum = true) :
    (('A' ≤ c && c ≤ 'Z') || ('a' ≤ c && c ≤ 'z') || ('0' ≤ c && c ≤ '9')) = true := by
  simp only [Char.isAlphanum, Char.isAlpha, Char.isUpper, Char.isLower, Char.isDigit,
    Bool.or_eq_true, Bool.and_eq_true, decide_eq_true_eq] at h
  simp only [Bool.or_eq_true, Bool.and_eq_true, decide_eq_true_eq]
  rcases h with (h | h) | h
  · exact Or.inl (Or.inl ⟨h.1, h.2⟩)
  · exact Or.inl (Or.inr ⟨h.1, h.2⟩)
  · exact Or.inr ⟨h.1, h.2⟩

/-- On ASCII code points Python's `isalnum` agrees with
`Char.isAlphanum`: the Latin-1 letter ranges all start above 127. -/
lemma pyIsAlnum_ascii {c : Char} (h : c.toNat < 128) : pyIsAlnum c = c.isAlphanum := by
  unfold pyIsAlnum
  cases halnum : c.isAlphanum with
  | true => simp
  | false =>
    simp only [Bool.false_or]
    have h1 : c.toNat ≠ 0xAA := by omega
    have h2 : c.toNat ≠ 0xB5 := by omega
    have h3 : c.toNat ≠ 0xBA := by omega
    have h4 : ¬ (0xC0 ≤ c.toNat) := by omega
    have h5 : ¬ (0xD8 ≤ c.toNat) := by omega
    have h6 : ¬ (0xF8 ≤ c.toNat) := by omega
    simp [h1, h2, h3, h4, h5, h6]

/-- C6 counterexample. The claim says the output of `sanitize` contains
only characters in `[A-Za-z0-9_.-]`; but the program's `ch.isalnum()`
is Unicode-aware, so the non-ASCII letter `é` (U+00E9) is alphanumeric
and is kept verbatim: `sanitize "é" = "é"`, whose single character lies
outside the claimed class. -/
theorem sanitize_eacute_kept :
    sanitize "é" = "é" ∧ 'é' ∈ (sanitize "é").data ∧ allowedChar 'é' = false := by
  refine ⟨by decide, by decide, by decide⟩

/-- C6 amended. `sanitize` keeps the characters Python's Unicode-aware
`isalnum` accepts plus `_`, `-`, `.` and replaces every other character
with `_` — so the output lies in `[A-Za-z0-9_.-]` only when the input
is ASCII, not for every input; the output length is
`min (input length) 120` — so at most 120, with truncation only past
120 — and `sanitize` is deterministic: equal inputs give equal
outputs. -/
theorem sanitize_spec (name : String) :
    (∀ c ∈ (sanitize name).data, (pyIsAlnum c || c = '_' || c = '-' || c = '.') = true) ∧
    ((∀ c ∈ name.data, c.toNat < 128) →
      ∀ c ∈ (sanitize name).data, allowedChar c = true) ∧
    (sanitize name).length = min name.length 120 ∧
    (sanitize name).length ≤ 120 ∧
    ∀ other : String, name = other → sanitize name = sanitize other := by
  have hdata : (sanitize name).data =
      (if (name.data.map sanitizeChar).length > 120 then
        (name.data.map sanitizeChar).take 120
      else name.data.map sanitizeChar) := rfl
  have hmem : ∀ c ∈ (sanitize name).data, ∃ a ∈ name.data, sanitizeChar a = c := by
    intro c hc
    rw [hdata] at hc
    have hmem' : c ∈ name.data.map sanitizeChar := by
      by_cases h : (name.data.map sanitizeChar).length > 120
      · rw [if_pos h] at hc
        exact List.take_subset _ _ hc
      · rwa [if_neg h] at hc
    obtain ⟨a, ha, rfl⟩ := List.mem_map.mp hmem'
    exact ⟨a, ha, rfl⟩
  have hlen : (sanitize name).length = min name.length 120 := by
    unfold sanitize
    simp only [String.length_mk]
    rw [show name.length = name.data.length from rfl]
    by_cases h : (name.data.map sanitizeChar).length > 120
    · rw [if_pos h]
      rw [List.length_take, List.length_map] at *
      omega
    · rw [if_neg h]
      rw [List.length_map] at *
      omega
  refine ⟨?_, ?_, hlen, by omega, ?_⟩
  · intro c hc
    obtain ⟨a, _, rfl⟩ := hmem c hc
    unfold sanitizeChar
    split
    · rename_i hcond
      exact hcond
    · decide
  · intro hascii c hc
    obtain ⟨a, ha, rfl⟩ := hmem c hc
    have ha128 := hascii a ha
    unfold sanitizeChar
    split
    · rename_i hcond
      simp only [Bool.or_eq_true, decide_eq_true_eq] at hcond
      rcases hcond with ((halnum | h1) | h2) | h3
      · have halpha : a.isAlphanum = true := by rwa [pyIsAlnum_ascii ha128] at halnum
        have hr := isAlphanum_ranges halpha
        simp only [allowedChar, Bool.or_eq_true, Bool.and_eq_true, decide_eq_true_eq] at hr ⊢
        tauto
      · subst h1; decide
      · subst h2; decide
      · subst h3; decide
    · decide
  · intro other h
    rw [h]

/-- C6 witness: `sanitize_spec` applied to the concrete ASCII name
`a/b`: the slash is replaced, every output character is in
`[A-Za-z0-9_.-]` (the ASCII hypothesis discharged at `a/b`), and the
length is preserved (3 ≤ 120). -/
theorem sanitize_spec_witness :
    (∀ c ∈ (sanitize "a/b").data, allowedChar c = true) ∧
      (sanitize "a/b").length = 3 ∧ sanitize "a/b" = sanitize "a/b" := by
  have h := sanitize_spec "a/b"
  exact ⟨h.2.1 (by decide), by rw [h.2.2.1]; decide, h.2.2.2.2 "a/b" rfl⟩

/-- C7. A focus address at which neither the exact-match lookup nor the
containing-function fallback resolves yields exactly the index entry
with name `unknown`, no file, `ok := false` and reason `no_function`;
the decompile-failed counter receives one increment, no file is
written, and the decompilation service is never invoked. -/
theorem focus_no_function (fns : List FunctionRecord) (addrStr : String) (dec : DecResult) :
    processFocus fns addrStr none none dec =
      { entry := { addr := addrStr, name := "unknown", file := none,
                   ok := false, reason := some "no_function" }
        wrote := none, invoked := false, dDecompiled := 0, dFailed := 1 } := rfl

/-- A one-record function list: a method of class `Obj` at address
`0x0`. -/
def fallbackFns : List FunctionRecord :=
  [{ addr := "0x0", name := "f", owner := "Obj", param_count := 0 }]

/-- The function resolved by the containing-unit fallback for focus
address `0x10`: its entry point is `0x0` (the record above). -/
def fallbackFn : FnInfo := { entryAddr := "0x0", name := "f" }

/-- C8 counterexample. The claim says a successfully decompiled focus
address whose RESOLVED function has a known owner is filed under the
per-owner subdirectory, "in particular … when the focus address
resolved via the containing-unit fallback".  But `owner_by_addr` is
keyed by the focus address string (line 364), not by the resolved
function: focus `0x10` resolves by fallback to the function entered at
`0x0`, whose owner `Obj` is known, yet the file lands at the output
root as `10_f.c`, not under `Obj/`. -/
theorem focus_fallback_owner_ignored :
    ownerByAddr fallbackFns fallbackFn.entryAddr = "Obj" ∧
    (processFocus fallbackFns "0x10" none (some fallbackFn)
        (DecResult.res true (some "code") "")).entry.ok = true ∧
    (processFocus fallbackFns "0x10" none (some fallbackFn)
        (DecResult.res true (some "code") "")).entry.file = some "10_f.c" ∧
    (processFocus fallbackFns "0x10" none (some fallbackFn)
        (DecResult.res true (some "code") "")).entry.file ≠ some "Obj/10_f.c" := by
  refine ⟨by decide, by decide, by decide, by decide⟩

/-- C8 amended. On a successful decompilation the output path is keyed
by the FOCUS ADDRESS's owner record: when `owner_by_addr` knows an
owner for the focus address string itself the file goes under that
owner's sanitized subdirectory and the index references it by that
relative path, and otherwise — in particular whenever the address
resolved only via the containing-unit fallback and no record carries
exactly the focus address — the file is placed at the output root. -/
theorem focus_success_grouping (fns : List FunctionRecord) (addrStr : String)
    (fnAt fnCont : Option FnInfo) (fn : FnInfo) (text errMsg : String)
    (hres : (match fnAt with | some f => some f | none => fnCont) = some fn) :
    (processFocus fns addrStr fnAt fnCont (DecResult.res true (some text) errMsg)).entry.file =
      some (if ownerByAddr fns addrStr ≠ "" then
          sanitize (ownerByAddr fns addrStr) ++ "/" ++ safeName addrStr fn.name ++ ".c"
        else safeName addrStr fn.name ++ ".c") ∧
    (processFocus fns addrStr fnAt fnCont (DecResult.res true (some text) errMsg)).entry.ok
      = true ∧
    (processFocus fns addrStr fnAt fnCont (DecResult.res true (some text) errMsg)).wrote =
      (processFocus fns addrStr fnAt fnCont (DecResult.res true (some text) errMsg)).entry.file ∧
    (processFocus fns addrStr fnAt fnCont (DecResult.res true (some text) errMsg)).dDecompiled
      = 1 := by
  cases fnAt with
  | some f =>
    injection hres with h
    subst h
    exact ⟨rfl, rfl, rfl, rfl⟩
  | none =>
    simp only at hres
    subst hres
    exact ⟨rfl, rfl, rfl, rfl⟩

/-- C8 witness: `focus_success_grouping` at an exact-match resolution
with no owner record: the file `8_g.c` is written at the output root. -/
theorem focus_success_grouping_witness :
    (processFocus [] "0x8" (some { entryAddr := "0x8", name := "g" }) none
        (DecResult.res true (some "body") "")).entry.file = some "8_g.c" := by
  have h := focus_success_grouping [] "0x8" (some { entryAddr := "0x8", name := "g" }) none
    { entryAddr := "0x8", name := "g" } "body" "" rfl
  rw [h.1]
  decide

/-- Every focus address increments exactly one of the two Phase 3
counters, whatever the host did — also when the host reported
completion but returned no decompiled text. -/
lemma processFocus_counter_one (fns : List FunctionRecord) (a : String)
    (x y : Option FnInfo) (d : DecResult) :
    (processFocus fns a x y d).dDecompiled + (processFocus fns a x y d).dFailed = 1 := by
  cases x with
  | some f =>
    cases d with
    | thrown msg => rfl
    | null => rfl
    | res completed decomp errMsg => cases completed <;> cases decomp <;> rfl
  | none =>
    cases y with
    | none => rfl
    | some f =>
      cases d with
      | thrown msg => rfl
      | null => rfl
      | res completed decomp errMsg => cases completed <;> cases decomp <;> rfl

/-- C10. When Phase 3 runs, each focus address contributes exactly one
index entry and exactly one increment to exactly one of the
decompiled / decompile-failed counters; hence the index is as long as
the focus list and the two counters sum to that length. -/
theorem focus_index_spec (fns : List FunctionRecord) (oracle : String → DecOracle)
    (focus : List String) :
    (runFocusList fns oracle focus).length = focus.length ∧
    (∀ o ∈ runFocusList fns oracle focus, o.dDecompiled + o.dFailed = 1) ∧
    ((runFocusList fns oracle focus).map FocusOutcome.dDecompiled).sum +
      ((runFocusList fns oracle focus).map FocusOutcome.dFailed).sum = focus.length := by
  refine ⟨by simp [runFocusList], ?_, ?_⟩
  · intro o ho
    rw [runFocusList, List.mem_map] at ho
    obtain ⟨a, _, rfl⟩ := ho
    exact processFocus_counter_one fns a _ _ _
  · induction focus with
    | nil => rfl
    | cons a rest ih =>
      simp only [runFocusList, List.map_cons, List.sum_cons, List.length_cons] at ih ⊢
      have h1 := processFocus_counter_one fns a (oracle a).fnAt (oracle a).fnCont (oracle a).dec
      omega

/-- C10 witness: `focus_index_spec` instantiated at the one-address
focus list whose address resolves to no function: that address's
outcome carries exactly one counter increment. -/
theorem focus_index_spec_witness :
    (processFocus [] "0x1" none none DecResult.null).dDecompiled +
      (processFocus [] "0x1" none none DecResult.null).dFailed = 1 := by
  have h := focus_index_spec []
    (fun _ => { fnAt := none, fnCont := none, dec := DecResult.null }) ["0x1"]
  exact h.2.1 _ (by decide)

/-- C9. With no script argument, `main` prints an error and returns at
line 44 — before the document is read and before any phase runs: the
run performs no mutation of the analysis database (no creation, rename,
label, type, signature or comment) and writes no file. -/
theorem missing_arg_no_mutation (doc : MetaDoc) (host : HostOracle) :
    mainRun [] doc host = [] := rfl

end Unflutter
